import Mathlib

/-!
Shallow embedding of the Aurora DSQL secret-rotation lambda
(`src/infrastructure/lib/functions/secret-rotation/src/lambda_function.py`).

The lambda rotates one secret.  Its state lives in AWS Secrets Manager
(a multi-version secret store), and its effects on the outside world are
DSQL auth-token generation requests, TLS database connections
(`psycopg.connect`), and a temporary trust-anchor certificate file.

Modelling choices:
  * The store for the single secret addressed by `SecretId` is a list of
    versions, each holding a version id, its staging labels and the parsed
    JSON document (`json.loads` of the `SecretString`).  JSON documents are
    modelled as string-to-string association lists; this covers every field
    the lambda reads (`username`, `password`, `host`, `engine`, `dbname`
    are strings, and `port` is parsed from its textual form with `int(...)`,
    modelled by `String.toInt?`).
  * Python exceptions are an explicit `Err` value; each constructor
    corresponds to one raise site or one exception class of a collaborator.
    Every stateful function returns its result together with the state, so
    that effects performed before a raise are preserved, exactly as in
    Python.
  * Network and database behaviour is an environment `DbEnv`: whether the
    certificate download succeeds, whether `psycopg.connect` succeeds under
    `sslmode=verify-full` and under `sslmode=require`, and whether the
    liveness query plus commit succeed.
  * Resource accounting (`ResState`) counts temporary certificate files
    created/deleted and database connections opened/closed, so leak
    properties are statable.
-/

namespace DsqlRotation

/-- Error values. Each constructor is one raise site of the lambda or one
exception class of an external collaborator:
`configurationError` is the `ValueError` for "not enabled for rotation";
`invalidVersionError` the `ValueError` for "has no stage for rotation";
`invalidStageError` the `ValueError` for "not set as AWSPENDING";
`invalidStepError` the `ValueError` for "Invalid step parameter";
`resourceNotFound` is Secrets Manager `ResourceNotFoundException`;
`invalidRequest` a Secrets Manager error when `VersionId` and `VersionStage`
disagree; `resourceExists` the put-on-existing-version error;
`engineError` / `missingField` the two `KeyError`s of `get_secret_dict`;
`validationError` the `ValueError`s of `generate_auth_token` (empty
username) and `test_secret` (unable to log in);
`dbError` a `psycopg.Error` escaping the liveness query;
`certFetchError` a `requests` failure downloading the root certificate;
`castError` a `ValueError` from `int(...)` on an unparsable port. -/
inductive Err
  | configurationError
  | invalidVersionError
  | invalidStageError
  | invalidStepError
  | resourceNotFound
  | invalidRequest
  | resourceExists
  | engineError
  | missingField (field : String)
  | validationError
  | dbError
  | certFetchError
  | castError
deriving DecidableEq, Repr

/-- A parsed secret JSON document: an association list of string fields. -/
abbrev SecretDict := List (String × String)

/-- Python `d[k]` / `k in d` read access on a parsed JSON document. -/
def lookupField (d : SecretDict) (k : String) : Option String :=
  (d.find? (fun p => p.1 == k)).map (fun p => p.2)

/-- Python `d[k] = v`: replaces the value at `k`, appending if absent. -/
def setField (d : SecretDict) (k v : String) : SecretDict :=
  if d.any (fun p => p.1 == k) then
    d.map (fun p => if p.1 == k then (k, v) else p)
  else d ++ [(k, v)]

/-- One version of the secret: its id, its staging labels
(entries of `VersionIdsToStages`), and the stored document. -/
structure SecretVersion where
  versionId : String
  stages : List String
  doc : SecretDict
deriving DecidableEq, Repr

/-- The store's state for the one secret the lambda rotates: the
`RotationEnabled` flag of `describe_secret` (absent, true or false) and the
version list (`VersionIdsToStages` plus each version's value). -/
structure SecretStore where
  rotationEnabled : Option Bool
  versions : List SecretVersion
deriving DecidableEq, Repr

/-- Modelled from the spec (§6, external collaborator):
`getSecretValue(id, stage, [versionId])`.  Without a version id it returns
the value of the version holding the stage label; with one, the version
must exist (`ResourceNotFoundException` otherwise) and must carry the
requested stage label. -/
def getSecretValue (st : SecretStore) (stage : String) (token : Option String) :
    Except Err SecretDict :=
  match token with
  | none =>
    match st.versions.find? (fun v => v.stages.contains stage) with
    | some v => .ok v.doc
    | none => .error .resourceNotFound
  | some t =>
    match st.versions.find? (fun v => v.versionId == t) with
    | none => .error .resourceNotFound
    | some v => if v.stages.contains stage then .ok v.doc else .error .invalidRequest

/-- Modelled from the spec (§6, external collaborator):
`putSecretValue(id, versionId, secretString, [stages])` fails with
`AlreadyExistsError` if the version already exists; otherwise it stores the
new version and attaches the staging labels, moving each label off any
version that previously held it (staging labels are unique per secret). -/
def putSecretValue (st : SecretStore) (token : String) (d : SecretDict)
    (stgs : List String) : Except Err SecretStore :=
  if st.versions.any (fun v => v.versionId == token) then .error .resourceExists
  else
    let moved := st.versions.map
      (fun w => { w with stages := w.stages.filter (fun x => !(stgs.contains x)) })
    .ok { st with versions := moved ++ [⟨token, stgs, d⟩] }

/-- Modelled from the spec (§6, external collaborator):
`updateVersionStage(id, stage, moveToVersion, removeFromVersion)` — atomic
stage transfer: the label is removed from `removeFrom` (when given) and
attached to `moveTo`. -/
def updateSecretVersionStage (st : SecretStore) (stage : String)
    (moveTo : String) (removeFrom : Option String) : SecretStore :=
  { st with versions := st.versions.map (fun v =>
      if removeFrom = some v.versionId then
        { v with stages := v.stages.filter (fun x => x != stage) }
      else if v.versionId == moveTo then
        { v with stages :=
            if v.stages.contains stage then v.stages else v.stages ++ [stage] }
      else v) }

/-- The admin-scoped and standard-scoped DSQL signing paths
(`generate_db_connect_admin_auth_token` vs `generate_db_connect_auth_token`). -/
inductive TokenPath
  | admin
  | standard
deriving DecidableEq, Repr

/-- The credential request issued to the DSQL client: which signing path,
and the host, region and expiry passed to it.  These are the only data the
lambda supplies; the pre-signed URL is a function of this request (and of
the ambient signing credentials, which are fixed process-wide). -/
structure TokenRequest where
  path : TokenPath
  host : String
  region : String
  expiresInSecs : Nat
deriving DecidableEq, Repr

/-- Python `str.strip()`: remove leading and trailing whitespace. -/
def pyStrip (s : String) : String :=
  ⟨((s.data.dropWhile Char.isWhitespace).reverse.dropWhile Char.isWhitespace).reverse⟩

/-- Python `str.lower()`: lowercase every character. -/
def pyLower (s : String) : String := ⟨s.data.map Char.toLower⟩

/-- `GenerateAuthToken.generate_auth_token`: raises `ValueError` when the
username is falsy (`if not username:`), then strips and lowercases it; the
literal `admin` requests the admin-scoped signing path, anything else the
standard-scoped path.  Host, region and expiry come from the generator's
construction. -/
def generate_auth_token (host region : String) (expiresInSecs : Nat)
    (username : String) : Except Err TokenRequest :=
  if username == "" then .error .validationError
  else if pyLower (pyStrip username) == "admin" then
    .ok ⟨.admin, host, region, expiresInSecs⟩
  else .ok ⟨.standard, host, region, expiresInSecs⟩

/-- Evaluation of `generate_auth_token` on any non-empty username: the
request carries the host, region, expiry and the admin-vs-standard class
of the stripped lowercased username, and nothing else. -/
theorem generate_auth_token_nonempty (host region : String) (e : Nat)
    (u : String) (h : u ≠ "") :
    generate_auth_token host region e u
      = .ok ⟨if pyLower (pyStrip u) == "admin" then .admin else .standard,
             host, region, e⟩ := by
  unfold generate_auth_token
  rw [if_neg (by simp [h])]
  by_cases h2 : (pyLower (pyStrip u) == "admin") = true
  · rw [if_pos h2, if_pos h2]
  · rw [if_neg h2, if_neg h2]

/-- Opaque model of the pre-signed URL returned by the DSQL client for a
request; the counter models that each call signs afresh. -/
def presignedUrl (r : TokenRequest) (n : Nat) : String :=
  (match r.path with
   | .admin => "admin-token:"
   | .standard => "token:") ++ r.host ++ ":" ++ toString n

/-- The one supported engine (`supported_engines = ["postgres"]`). -/
def supported_engines : List String := ["postgres"]

/-- `required_fields = ["username", "password", "host"]`. -/
def required_fields : List String := ["username", "password", "host"]

/-- The validation half of `get_secret_dict`: the parsed document must name
a supported engine and contain every required field (first missing field
reported, as in the Python loop). -/
def validate_secret_dict (d : SecretDict) : Except Err SecretDict :=
  if !(match lookupField d "engine" with
       | some e => supported_engines.contains e
       | none => false) then .error .engineError
  else
    match required_fields.find? (fun f => (lookupField d f).isNone) with
    | some f => .error (.missingField f)
    | none => .ok d

/-- `get_secret_dict(arn, stage, token=None)`: fetch the value at the stage
(validating the version id against the stage when a token is passed), then
validate the parsed document. -/
def get_secret_dict (st : SecretStore) (stage : String)
    (token : Option String) : Except Err SecretDict :=
  match getSecretValue st stage token with
  | .error e => .error e
  | .ok d => validate_secret_dict d

/-- Which TLS tier a `psycopg` connection was established under. -/
inductive ConnTier
  | verifyFull
  | requireTier
deriving DecidableEq, Repr

/-- Environment describing the behaviour of the network and database for
this invocation: whether the root-certificate download succeeds, whether
`psycopg.connect` succeeds under `sslmode=verify-full` and under
`sslmode=require`, and whether the liveness query plus commit succeed. -/
structure DbEnv where
  certFetchOk : Bool
  verifyFullOk : Bool
  requireOk : Bool
  queryOk : Bool
deriving DecidableEq, Repr

/-- Resource accounting: temporary certificate files created and deleted
(`tempfile.NamedTemporaryFile` / `os.unlink`), and database connections
opened and closed. -/
structure ResState where
  certsCreated : Nat
  certsDeleted : Nat
  connsOpened : Nat
  connsClosed : Nat
deriving DecidableEq, Repr

/-- `get_amazon_root_cert`: creates a temporary file; on download failure
the file is closed and unlinked and the exception propagates; on success
the path (here `Unit`) is returned with the file on disk. -/
def get_amazon_root_cert (env : DbEnv) (r : ResState) :
    Except Err Unit × ResState :=
  let r1 := { r with certsCreated := r.certsCreated + 1 }
  if env.certFetchOk then (.ok (), r1)
  else (.error .certFetchError, { r1 with certsDeleted := r1.certsDeleted + 1 })

/-- `connect_and_authenticate`: fetch the root certificate, then try
`sslmode=verify-full`; on `psycopg.Error` fall back to `sslmode=require`;
on a second `psycopg.Error` return `None`.  The `finally` clause unlinks
the certificate file on each of the three exits of the `try`. -/
def connect_and_authenticate (env : DbEnv) (r : ResState) :
    Except Err (Option ConnTier) × ResState :=
  match get_amazon_root_cert env r with
  | (.error e, r1) => (.error e, r1)
  | (.ok _, r1) =>
    if env.verifyFullOk then
      (.ok (some .verifyFull),
        { r1 with connsOpened := r1.connsOpened + 1,
                  certsDeleted := r1.certsDeleted + 1 })
    else if env.requireOk then
      (.ok (some .requireTier),
        { r1 with connsOpened := r1.connsOpened + 1,
                  certsDeleted := r1.certsDeleted + 1 })
    else
      (.ok none, { r1 with certsDeleted := r1.certsDeleted + 1 })

/-- `get_connection`: default the port (parsing it with `int(...)` when
present) and the database name, then delegate to
`connect_and_authenticate`.  The port and dbname only populate the
connection keyword arguments, whose outcome `DbEnv` decides. -/
def get_connection (d : SecretDict) (env : DbEnv) (r : ResState) :
    Except Err (Option ConnTier) × ResState :=
  match lookupField d "port" with
  | some s =>
    match s.toInt? with
    | some _ => connect_and_authenticate env r
    | none => (.error .castError, r)
  | none => connect_and_authenticate env r

/-- The rotation state threaded through the handler: the secret store, the
count of auth tokens generated so far (for freshness and churn accounting),
the region from the environment, the network environment and the resource
accounting. -/
structure RotState where
  store : SecretStore
  genCount : Nat
  region : String
  env : DbEnv
  res : ResState
deriving DecidableEq, Repr

/-- `create_secret(arn, token)`: require the `AWSCURRENT` document; then if
`get_secret_dict(arn, "AWSPENDING", token)` succeeds, no-op; on
`ResourceNotFoundException`, generate a fresh auth token for the current
username with an 8-hour (28800 s) expiry and put it as the `AWSPENDING`
version under the attempt token.  Any other exception propagates. -/
def create_secret (token : String) (s : RotState) :
    Except Err Unit × RotState :=
  match get_secret_dict s.store "AWSCURRENT" none with
  | .error e => (.error e, s)
  | .ok current_dict =>
    match get_secret_dict s.store "AWSPENDING" (some token) with
    | .ok _ => (.ok (), s)
    | .error .resourceNotFound =>
      match lookupField current_dict "host", lookupField current_dict "username" with
      | some host, some user =>
        match generate_auth_token host s.region 28800 user with
        | .error e => (.error e, s)
        | .ok req =>
          let pw := presignedUrl req s.genCount
          let s1 := { s with genCount := s.genCount + 1 }
          match putSecretValue s1.store token
              (setField current_dict "password" pw) ["AWSPENDING"] with
          | .error e => (.error e, s1)
          | .ok st1 => (.ok (), { s1 with store := st1 })
      | _, _ => (.error (.missingField "host"), s)
    | .error e => (.error e, s)

/-- `set_secret(arn, token)`: Aurora DSQL needs no set step; log and return. -/
def set_secret (_token : String) (s : RotState) : Except Err Unit × RotState :=
  (.ok (), s)

/-- `test_secret(arn, token)`: fetch the `AWSPENDING` document for the
attempt token, open a connection; if one was obtained, run
`SELECT CURRENT_TIMESTAMP` and commit inside `try`, closing the connection
in `finally`, and return; if none was obtained, raise
`ValueError` ("Unable to log into database with pending secret"). -/
def test_secret (token : String) (s : RotState) : Except Err Unit × RotState :=
  match get_secret_dict s.store "AWSPENDING" (some token) with
  | .error e => (.error e, s)
  | .ok d =>
    match get_connection d s.env s.res with
    | (.error e, r) => (.error e, { s with res := r })
    | (.ok none, r) => (.error .validationError, { s with res := r })
    | (.ok (some _), r) =>
      let r2 := { r with connsClosed := r.connsClosed + 1 }
      if s.env.queryOk then (.ok (), { s with res := r2 })
      else (.error .dbError, { s with res := r2 })

/-- `finish_secret(arn, token)`: find the first version staged
`AWSCURRENT`; if it is the attempt token's version, no-op; otherwise move
the `AWSCURRENT` label from it (or from nothing, when no version holds it)
to the attempt token's version. -/
def finish_secret (token : String) (s : RotState) : Except Err Unit × RotState :=
  match s.store.versions.find? (fun v => v.stages.contains "AWSCURRENT") with
  | some v =>
    if v.versionId == token then (.ok (), s)
    else (.ok (),
      { s with store :=
          updateSecretVersionStage s.store "AWSCURRENT" token (some v.versionId) })
  | none =>
    (.ok (),
      { s with store := updateSecretVersionStage s.store "AWSCURRENT" token none })

/-- The rotation event: `SecretId` is implicit (the store models that one
secret), `ClientRequestToken` and `Step` are carried. -/
structure RotEvent where
  token : String
  step : String
deriving DecidableEq, Repr

/-- The step dispatch of `lambda_handler` (lines 104-115): the four phase
handlers, any other step raising `ValueError`. -/
def dispatch_step (step token : String) (s : RotState) :
    Except Err Unit × RotState :=
  if step == "createSecret" then create_secret token s
  else if step == "setSecret" then set_secret token s
  else if step == "testSecret" then test_secret token s
  else if step == "finishSecret" then finish_secret token s
  else (.error .invalidStepError, s)

/-- Outcome of one handler invocation: the Python return/raise, the world
state after it, and a ghost flag recording whether control reached the step
dispatch (false when a staging precondition failed or the `AWSCURRENT`
short-circuit returned). -/
structure HandlerOut where
  result : Except Err Unit
  state : RotState
  reachedDispatch : Bool
deriving Repr

/-- `lambda_handler`: describe the secret and check, in order, that
rotation is enabled (`"RotationEnabled" in metadata and not
metadata["RotationEnabled"]` raises), that the attempt token appears in
`VersionIdsToStages` (raises otherwise), that it is not already
`AWSCURRENT` (success short-circuit) and that it is `AWSPENDING` (raises
otherwise); then dispatch the step. -/
def lambda_handler (ev : RotEvent) (s : RotState) : HandlerOut :=
  if s.store.rotationEnabled == some false then
    ⟨.error .configurationError, s, false⟩
  else
    match s.store.versions.find? (fun v => v.versionId == ev.token) with
    | none => ⟨.error .invalidVersionError, s, false⟩
    | some v =>
      if v.stages.contains "AWSCURRENT" then ⟨.ok (), s, false⟩
      else if !(v.stages.contains "AWSPENDING") then
        ⟨.error .invalidStageError, s, false⟩
      else
        let out := dispatch_step ev.step ev.token s
        ⟨out.1, out.2, true⟩

/-! ### Concrete fixtures used to instantiate the theorems -/

/-- A valid parsed secret document for a standard user. -/
def exDoc : SecretDict :=
  [("engine", "postgres"), ("username", "app_user"),
   ("password", "pw"), ("host", "db.example")]

/-- The version currently staged AWSCURRENT. -/
def exCurrentVersion : SecretVersion := ⟨"v1", ["AWSCURRENT"], exDoc⟩

/-- A candidate version staged AWSPENDING under attempt token `v2`. -/
def exPendingVersion : SecretVersion := ⟨"v2", ["AWSPENDING"], exDoc⟩

/-- A store mid-rotation: one CURRENT and one PENDING version. -/
def exStore : SecretStore := ⟨some true, [exCurrentVersion, exPendingVersion]⟩

/-- A store before rotation: only the CURRENT version. -/
def exStoreCur : SecretStore := ⟨some true, [exCurrentVersion]⟩

/-- An environment where everything succeeds. -/
def exEnv : DbEnv := ⟨true, true, true, true⟩

/-- Zeroed resource accounting. -/
def exRes : ResState := ⟨0, 0, 0, 0⟩

/-- Rotation state over `exStore`. -/
def exState : RotState := ⟨exStore, 0, "us-east-1", exEnv, exRes⟩

/-- Rotation state over `exStoreCur`. -/
def exStateCur : RotState := ⟨exStoreCur, 0, "us-east-1", exEnv, exRes⟩

/-! ### C7 -/

/-- C7: `get_secret_dict`'s validation raises for every parsed document
whose engine field is missing or different from the single supported
engine `postgres`, and for every document missing one of the required
fields `username`, `password`, `host`; for every document with engine
`postgres` and the three required fields present it returns the document. -/
theorem c7_get_secret_dict_validation (d : SecretDict) :
    (lookupField d "engine" ≠ some "postgres" →
      validate_secret_dict d = .error .engineError)
    ∧ (∀ f ∈ required_fields, lookupField d f = none →
        ∃ e, validate_secret_dict d = .error e)
    ∧ (lookupField d "engine" = some "postgres" →
        (∀ f ∈ required_fields, (lookupField d f).isSome) →
        validate_secret_dict d = .ok d) := by
  refine ⟨?_, ?_, ?_⟩
  · intro hne
    unfold validate_secret_dict
    match h : lookupField d "engine" with
    | none => simp [h]
    | some e =>
      have he : e ≠ "postgres" := by
        intro he
        exact hne (he ▸ h)
      simp [h, supported_engines, he]
  · intro f hf hnone
    unfold validate_secret_dict
    match h : lookupField d "engine" with
    | none => exact ⟨.engineError, by simp [h]⟩
    | some e =>
      by_cases he : e = "postgres"
      · subst he
        have hfs : (required_fields.find? (fun g => (lookupField d g).isNone)).isSome := by
          rw [List.find?_isSome]
          exact ⟨f, hf, by simp [hnone]⟩
        match hfind : required_fields.find? (fun g => (lookupField d g).isNone) with
        | some g => exact ⟨.missingField g, by simp [h, supported_engines, hfind]⟩
        | none => rw [hfind] at hfs; simp at hfs
      · exact ⟨.engineError, by simp [h, supported_engines, he]⟩
  · intro heng hall
    unfold validate_secret_dict
    have hfind : required_fields.find? (fun g => (lookupField d g).isNone) = none := by
      rw [List.find?_eq_none]
      intro g hg
      have h2 := hall g hg
      cases hlk : lookupField d g with
      | none => rw [hlk] at h2; simp at h2
      | some v => simp [hlk]
    simp [heng, supported_engines, hfind]

/-- C7 witness: a concrete valid document is returned unchanged. -/
theorem c7_get_secret_dict_validation_witness :
    validate_secret_dict exDoc = .ok exDoc :=
  (c7_get_secret_dict_validation exDoc).2.2 (by decide) (by decide)

/-! ### C8 -/

/-- C8 counterexample: a whitespace-only username is empty after trimming,
yet `generate_auth_token` does not fail — the falsiness check runs before
`strip()` — and a standard-scoped token request is produced. -/
theorem c8_counterexample :
    generate_auth_token "db.example" "us-east-1" 900 " "
      = .ok ⟨.standard, "db.example", "us-east-1", 900⟩ := rfl

/-- C8 amended: `generate_auth_token` fails with the validation error — and
produces no token — exactly for the literally empty username; a
whitespace-only username passes the emptiness check (which precedes
trimming) and yields a token request. -/
theorem c8_empty_username_amended (host region : String) (e : Nat) (u : String) :
    (generate_auth_token host region e u = .error .validationError ↔ u = "")
    ∧ (u ≠ "" → ∃ req, generate_auth_token host region e u = .ok req) := by
  by_cases h : u = ""
  · subst h
    exact ⟨⟨fun _ => rfl, fun _ => rfl⟩, fun hne => absurd rfl hne⟩
  · have hg := generate_auth_token_nonempty host region e u h
    refine ⟨⟨fun hc => ?_, fun hc => absurd hc h⟩, fun _ => ⟨_, hg⟩⟩
    rw [hg] at hc
    exact Except.noConfusion hc

/-- C8 amended witness: the empty username is rejected, the whitespace-only
one produces a token request. -/
theorem c8_empty_username_amended_witness :
    generate_auth_token "db.example" "us-east-1" 900 "" = .error .validationError
    ∧ (∃ req, generate_auth_token "db.example" "us-east-1" 900 " " = .ok req) :=
  ⟨(c8_empty_username_amended "db.example" "us-east-1" 900 "").1.mpr rfl,
   (c8_empty_username_amended "db.example" "us-east-1" 900 " ").2 (by decide)⟩

/-! ### C9 -/

/-- C9 counterexample: the issued credential request does not mention the
individual principal: two distinct non-admin usernames produce identical
requests, so their tokens are interchangeable, contrary to the claim. -/
theorem c9_counterexample :
    generate_auth_token "db.example" "us-east-1" 900 "alice"
      = generate_auth_token "db.example" "us-east-1" 900 "bob"
    ∧ "alice" ≠ "bob" :=
  ⟨rfl, by decide⟩

/-- C9 amended: every issued credential request is scoped to the host, the
region, the expiry and the admin-vs-standard class of the trimmed
lowercased username — `admin` in any case or whitespace form requests the
admin-scoped signing path and every other username the standard-scoped
path; the individual username does not otherwise enter the request. -/
theorem c9_token_scoping_amended (host region : String) (e : Nat) (u : String)
    (hne : u ≠ "") :
    (pyLower (pyStrip u) = "admin" →
      generate_auth_token host region e u = .ok ⟨.admin, host, region, e⟩)
    ∧ (pyLower (pyStrip u) ≠ "admin" →
      generate_auth_token host region e u = .ok ⟨.standard, host, region, e⟩) := by
  have hg := generate_auth_token_nonempty host region e u hne
  constructor
  · intro h
    rw [hg, if_pos (by simp [h])]
  · intro h
    rw [hg, if_neg (by simp [h])]

/-- C9 amended witness: `Admin` requests the admin-scoped path and
`app_user` the standard-scoped path. -/
theorem c9_token_scoping_amended_witness :
    generate_auth_token "db.example" "us-east-1" 900 "Admin"
      = .ok ⟨.admin, "db.example", "us-east-1", 900⟩
    ∧ generate_auth_token "db.example" "us-east-1" 900 "app_user"
      = .ok ⟨.standard, "db.example", "us-east-1", 900⟩ :=
  ⟨(c9_token_scoping_amended "db.example" "us-east-1" 900 "Admin"
      (by decide)).1 rfl,
   (c9_token_scoping_amended "db.example" "us-east-1" 900 "app_user"
      (by decide)).2 (by decide)⟩

/-! ### C6 -/

/-- C6: once the temporary trust-anchor certificate has been acquired,
`connect_and_authenticate` deletes it exactly once on every exit path —
strict-verification success, fallback success, and total failure (where no
connection is returned) — and when strict verification fails but the
encrypted-unverified attempt succeeds it returns a connection. -/
theorem c6_cert_released_once (env : DbEnv) (r : ResState)
    (hc : env.certFetchOk = true) :
    (connect_and_authenticate env r).2.certsDeleted = r.certsDeleted + 1
    ∧ (connect_and_authenticate env r).2.certsCreated = r.certsCreated + 1
    ∧ (env.verifyFullOk = false → env.requireOk = true →
        (connect_and_authenticate env r).1 = .ok (some .requireTier))
    ∧ (env.verifyFullOk = false → env.requireOk = false →
        (connect_and_authenticate env r).1 = .ok none) := by
  unfold connect_and_authenticate get_amazon_root_cert
  by_cases h1 : env.verifyFullOk = true
  · simp [hc, h1]
  · by_cases h2 : env.requireOk = true
    · simp [hc, h1, h2]
    · simp [hc, h1, h2]

/-- C6 witness: the fallback-success path deletes the certificate exactly
once and returns the encrypted-unverified connection. -/
theorem c6_cert_released_once_witness :
    (connect_and_authenticate ⟨true, false, true, true⟩ ⟨0, 0, 0, 0⟩).2.certsDeleted = 1
    ∧ (connect_and_authenticate ⟨true, false, true, true⟩ ⟨0, 0, 0, 0⟩).1
        = .ok (some .requireTier) :=
  ⟨(c6_cert_released_once ⟨true, false, true, true⟩ ⟨0, 0, 0, 0⟩ rfl).1,
   (c6_cert_released_once ⟨true, false, true, true⟩ ⟨0, 0, 0, 0⟩ rfl).2.2.1 rfl rfl⟩

/-! ### Branchwise evaluation lemmas for the handler -/

/-- When the store says rotation is disabled, the handler raises at once. -/
theorem lambda_handler_config (ev : RotEvent) (s : RotState)
    (hrot : s.store.rotationEnabled = some false) :
    lambda_handler ev s = ⟨.error .configurationError, s, false⟩ := by
  unfold lambda_handler
  rw [if_pos (by simp [hrot])]

/-- When the attempt token is not in the version map, the handler raises. -/
theorem lambda_handler_noversion (ev : RotEvent) (s : RotState)
    (hrot : s.store.rotationEnabled ≠ some false)
    (hfind : s.store.versions.find? (fun w => w.versionId == ev.token) = none) :
    lambda_handler ev s = ⟨.error .invalidVersionError, s, false⟩ := by
  unfold lambda_handler
  rw [if_neg (by simp [hrot]), hfind]

/-- When the attempt token is already AWSCURRENT, the handler returns. -/
theorem lambda_handler_current (ev : RotEvent) (s : RotState) (v : SecretVersion)
    (hrot : s.store.rotationEnabled ≠ some false)
    (hfind : s.store.versions.find? (fun w => w.versionId == ev.token) = some v)
    (hcur : v.stages.contains "AWSCURRENT" = true) :
    lambda_handler ev s = ⟨.ok (), s, false⟩ := by
  unfold lambda_handler
  rw [if_neg (by simp [hrot]), hfind]
  dsimp only
  rw [if_pos hcur]

/-- When the attempt token is neither AWSCURRENT nor AWSPENDING, the
handler raises. -/
theorem lambda_handler_badstage (ev : RotEvent) (s : RotState) (v : SecretVersion)
    (hrot : s.store.rotationEnabled ≠ some false)
    (hfind : s.store.versions.find? (fun w => w.versionId == ev.token) = some v)
    (hcur : v.stages.contains "AWSCURRENT" = false)
    (hpend : v.stages.contains "AWSPENDING" = false) :
    lambda_handler ev s = ⟨.error .invalidStageError, s, false⟩ := by
  have hcurm : "AWSCURRENT" ∉ v.stages := by simpa using hcur
  have hpendm : "AWSPENDING" ∉ v.stages := by simpa using hpend
  unfold lambda_handler
  rw [if_neg (by simp [hrot]), hfind]
  dsimp only
  rw [if_neg (by simp [hcurm]), if_pos (by simp [hpendm])]

/-- When every staging precondition passes with the attempt token staged
AWSPENDING, the handler's outcome is that of the step dispatch. -/
theorem lambda_handler_dispatch (ev : RotEvent) (s : RotState) (v : SecretVersion)
    (hrot : s.store.rotationEnabled ≠ some false)
    (hfind : s.store.versions.find? (fun w => w.versionId == ev.token) = some v)
    (hcur : v.stages.contains "AWSCURRENT" = false)
    (hpend : v.stages.contains "AWSPENDING" = true) :
    lambda_handler ev s = ⟨(dispatch_step ev.step ev.token s).1,
      (dispatch_step ev.step ev.token s).2, true⟩ := by
  have hcurm : "AWSCURRENT" ∉ v.stages := by simpa using hcur
  have hpendm : "AWSPENDING" ∈ v.stages := by simpa using hpend
  unfold lambda_handler
  rw [if_neg (by simp [hrot]), hfind]
  dsimp only
  rw [if_neg (by simp [hcurm]), if_neg (by simp [hpendm])]

/-! ### C2 -/

/-- C2: when the attempt token's version is already staged AWSCURRENT (and
the earlier checks pass: rotation not disabled, token present in the
version map), the handler returns success immediately for every step
value, with the state unchanged (no store write, no side effects) and the
step dispatch never reached. -/
theorem c2_current_short_circuit (ev : RotEvent) (s : RotState)
    (v : SecretVersion)
    (hen : s.store.rotationEnabled ≠ some false)
    (hfind : s.store.versions.find? (fun w => w.versionId == ev.token) = some v)
    (hcur : v.stages.contains "AWSCURRENT" = true) :
    lambda_handler ev s = ⟨.ok (), s, false⟩ :=
  lambda_handler_current ev s v hen hfind hcur

/-- C2 witness: with token `v1` already CURRENT, any step (here an
arbitrary string) returns success with the state untouched. -/
theorem c2_current_short_circuit_witness :
    lambda_handler ⟨"v1", "testSecret"⟩ exState = ⟨.ok (), exState, false⟩ :=
  c2_current_short_circuit ⟨"v1", "testSecret"⟩ exState exCurrentVersion
    (by decide) (by decide) (by decide)

/-! ### C10 -/

/-- C10: when all staging preconditions pass (rotation not disabled, token
present, not yet CURRENT, staged PENDING), a step outside the four named
phases raises the invalid-step error: it never returns success and the
state is unchanged, so no phase action is performed. -/
theorem c10_invalid_step (ev : RotEvent) (s : RotState) (v : SecretVersion)
    (hen : s.store.rotationEnabled ≠ some false)
    (hfind : s.store.versions.find? (fun w => w.versionId == ev.token) = some v)
    (hcur : v.stages.contains "AWSCURRENT" = false)
    (hpend : v.stages.contains "AWSPENDING" = true)
    (hstep : ev.step ∉ ["createSecret", "setSecret", "testSecret", "finishSecret"]) :
    lambda_handler ev s = ⟨.error .invalidStepError, s, true⟩ := by
  simp only [List.mem_cons, List.not_mem_nil, or_false, not_or] at hstep
  obtain ⟨h1, h2, h3, h4⟩ := hstep
  rw [lambda_handler_dispatch ev s v hen hfind hcur hpend]
  unfold dispatch_step
  rw [if_neg (by simp [h1]), if_neg (by simp [h2]), if_neg (by simp [h3]),
    if_neg (by simp [h4])]

/-- C10 witness: the unrecognized step `rotateSecret` fails with the
invalid-step error and leaves the state unchanged. -/
theorem c10_invalid_step_witness :
    lambda_handler ⟨"v2", "rotateSecret"⟩ exState
      = ⟨.error .invalidStepError, exState, true⟩ :=
  c10_invalid_step ⟨"v2", "rotateSecret"⟩ exState exPendingVersion
    (by decide) (by decide) (by decide) (by decide) (by decide)

/-! ### C1 -/

/-- C1: the handler fails before dispatching any phase exactly when a
staging precondition is violated; the checks run in order — rotation
disabled fails with the configuration error, an absent attempt token with
the invalid-version error, and (when the token is not already CURRENT) a
token not staged PENDING with the invalid-stage error — and when every
precondition holds with the token not yet CURRENT, the handler's outcome
is exactly that of dispatching the requested step. -/
theorem c1_preconditions (ev : RotEvent) (s : RotState) :
    ((∃ e, (lambda_handler ev s).result = .error e)
        ∧ (lambda_handler ev s).reachedDispatch = false
      ↔ s.store.rotationEnabled = some false
        ∨ s.store.versions.find? (fun w => w.versionId == ev.token) = none
        ∨ ∃ v, s.store.versions.find? (fun w => w.versionId == ev.token) = some v
            ∧ v.stages.contains "AWSCURRENT" = false
            ∧ v.stages.contains "AWSPENDING" = false)
    ∧ (s.store.rotationEnabled = some false →
        lambda_handler ev s = ⟨.error .configurationError, s, false⟩)
    ∧ (s.store.rotationEnabled ≠ some false →
        s.store.versions.find? (fun w => w.versionId == ev.token) = none →
        lambda_handler ev s = ⟨.error .invalidVersionError, s, false⟩)
    ∧ (∀ v, s.store.rotationEnabled ≠ some false →
        s.store.versions.find? (fun w => w.versionId == ev.token) = some v →
        v.stages.contains "AWSCURRENT" = false →
        v.stages.contains "AWSPENDING" = false →
        lambda_handler ev s = ⟨.error .invalidStageError, s, false⟩)
    ∧ (∀ v, s.store.rotationEnabled ≠ some false →
        s.store.versions.find? (fun w => w.versionId == ev.token) = some v →
        v.stages.contains "AWSCURRENT" = false →
        v.stages.contains "AWSPENDING" = true →
        lambda_handler ev s = ⟨(dispatch_step ev.step ev.token s).1,
          (dispatch_step ev.step ev.token s).2, true⟩) := by
  refine ⟨?_, fun h => lambda_handler_config ev s h,
    fun h hf => lambda_handler_noversion ev s h hf,
    fun v h hf hc hp => lambda_handler_badstage ev s v h hf hc hp,
    fun v h hf hc hp => lambda_handler_dispatch ev s v h hf hc hp⟩
  by_cases hrot : s.store.rotationEnabled = some false
  · rw [lambda_handler_config ev s hrot]
    exact ⟨fun _ => .inl hrot, fun _ => ⟨⟨_, rfl⟩, rfl⟩⟩
  · cases hfind : s.store.versions.find? (fun w => w.versionId == ev.token) with
    | none =>
      rw [lambda_handler_noversion ev s hrot hfind]
      exact ⟨fun _ => .inr (.inl rfl), fun _ => ⟨⟨_, rfl⟩, rfl⟩⟩
    | some v =>
      cases hcur : v.stages.contains "AWSCURRENT" with
      | true =>
        rw [lambda_handler_current ev s v hrot hfind hcur]
        constructor
        · rintro ⟨⟨e, he⟩, -⟩
          exact Except.noConfusion he
        · rintro (h | h | ⟨w, hw, hwc, -⟩)
          · exact absurd h hrot
          · exact Option.noConfusion h
          · injection hw with hw
            subst hw
            rw [hcur] at hwc
            exact Bool.noConfusion hwc
      | false =>
        cases hpend : v.stages.contains "AWSPENDING" with
        | true =>
          rw [lambda_handler_dispatch ev s v hrot hfind hcur hpend]
          constructor
          · rintro ⟨-, hrd⟩
            exact Bool.noConfusion hrd
          · rintro (h | h | ⟨w, hw, -, hwp⟩)
            · exact absurd h hrot
            · exact Option.noConfusion h
            · injection hw with hw
              subst hw
              rw [hpend] at hwp
              exact Bool.noConfusion hwp
        | false =>
          rw [lambda_handler_badstage ev s v hrot hfind hcur hpend]
          exact ⟨fun _ => .inr (.inr ⟨v, rfl, hcur, hpend⟩),
            fun _ => ⟨⟨_, rfl⟩, rfl⟩⟩

/-- C1 witness: an attempt token absent from the version map fails with
the invalid-version error before any dispatch. -/
theorem c1_preconditions_witness :
    lambda_handler ⟨"zz", "createSecret"⟩ exState
      = ⟨.error .invalidVersionError, exState, false⟩ :=
  (c1_preconditions ⟨"zz", "createSecret"⟩ exState).2.2.1 (by decide) (by decide)

/-! ### C4 -/

/-- C4: for every valid input — the attempt token staged AWSPENDING in a
well-formed store (distinct version ids, at most one version staged
AWSCURRENT) — `finish_secret` succeeds, and afterwards a version is staged
AWSCURRENT exactly when it is the attempt token's version, which exists;
when the attempt token's version was already marked AWSCURRENT no stage
moves (the state is unchanged). -/
theorem c4_finish_secret (token : String) (s : RotState) (vt : SecretVersion)
    (hid : (s.store.versions.map (fun v => v.versionId)).Nodup)
    (huniq : ∀ v ∈ s.store.versions, ∀ w ∈ s.store.versions,
        "AWSCURRENT" ∈ v.stages → "AWSCURRENT" ∈ w.stages → v = w)
    (hfind : s.store.versions.find? (fun v => v.versionId == token) = some vt)
    (hpend : "AWSPENDING" ∈ vt.stages) :
    (finish_secret token s).1 = .ok ()
    ∧ (∀ v ∈ (finish_secret token s).2.store.versions,
        ("AWSCURRENT" ∈ v.stages ↔ v.versionId = token))
    ∧ (∃ v ∈ (finish_secret token s).2.store.versions, v.versionId = token)
    ∧ ("AWSCURRENT" ∈ vt.stages → (finish_secret token s).2 = s) := by
  have hvtmem : vt ∈ s.store.versions := List.mem_of_find?_eq_some hfind
  have hvtid : vt.versionId = token := by
    have h := List.find?_some hfind
    simpa using h
  have hinj : ∀ x ∈ s.store.versions, ∀ y ∈ s.store.versions,
      x.versionId = y.versionId → x = y := fun x hx y hy hxy =>
    List.inj_on_of_nodup_map hid hx hy hxy
  cases hc : s.store.versions.find? (fun v => v.stages.contains "AWSCURRENT") with
  | some vc =>
    have hvcmem : vc ∈ s.store.versions := List.mem_of_find?_eq_some hc
    have hvccur : "AWSCURRENT" ∈ vc.stages := by
      have h := List.find?_some hc
      simpa using h
    by_cases hb : vc.versionId = token
    · have hvceq : vc = vt := hinj vc hvcmem vt hvtmem (by rw [hb, hvtid])
      have hout : finish_secret token s = (.ok (), s) := by
        unfold finish_secret
        rw [hc]
        dsimp only
        rw [if_pos (by simp [hb])]
      rw [hout]
      refine ⟨rfl, ?_, ⟨vt, hvtmem, hvtid⟩, fun _ => rfl⟩
      intro v hv
      constructor
      · intro hcur
        have hveq := huniq v hv vc hvcmem hcur hvccur
        rw [hveq, hb]
      · intro hvid
        have hveq : v = vt := hinj v hv vt hvtmem (by rw [hvid, hvtid])
        rw [hveq, ← hvceq]
        exact hvccur
    · have hout : finish_secret token s =
          (.ok (), { s with
            store := updateSecretVersionStage s.store "AWSCURRENT" token (some vc.versionId) }) := by
        unfold finish_secret
        rw [hc]
        dsimp only
        rw [if_neg (by simp [hb])]
      rw [hout]
      refine ⟨rfl, ?_, ?_, fun hcurvt => ?_⟩
      · intro v2 hv2
        unfold updateSecretVersionStage at hv2
        dsimp only at hv2
        obtain ⟨v, hv, rfl⟩ := List.mem_map.mp hv2
        by_cases hA : vc.versionId = v.versionId
        · rw [if_pos (by simp [hA])]
          apply iff_of_false
          · simp [List.mem_filter]
          · dsimp only
            rw [← hA]
            exact hb
        · rw [if_neg (by simp [hA])]
          by_cases hB : v.versionId = token
          · rw [if_pos (by simp [hB])]
            apply iff_of_true
            · by_cases hC : v.stages.contains "AWSCURRENT" = true
              · dsimp only
                rw [if_pos hC]
                simpa using hC
              · dsimp only
                rw [if_neg hC]
                simp
            · exact hB
          · rw [if_neg (by simp [hB])]
            apply iff_of_false
            · intro hcur
              have hveq := huniq v hv vc hvcmem hcur hvccur
              exact hA (by rw [hveq])
            · exact hB
      · refine ⟨_, List.mem_map_of_mem _ hvtmem, ?_⟩
        rw [if_neg (by simp [hvtid, hb]), if_pos (by simp [hvtid])]
        exact hvtid
      · have hveq : vt = vc := huniq vt hvtmem vc hvcmem hcurvt hvccur
        exact absurd (by rw [← hveq]; exact hvtid) hb
  | none =>
    have hnone : ∀ v ∈ s.store.versions, "AWSCURRENT" ∉ v.stages := by
      intro v hv
      have h := List.find?_eq_none.mp hc v hv
      simpa using h
    have hout : finish_secret token s =
        (.ok (), { s with
          store := updateSecretVersionStage s.store "AWSCURRENT" token none }) := by
      unfold finish_secret
      rw [hc]
    rw [hout]
    refine ⟨rfl, ?_, ?_, fun hcurvt => absurd hcurvt (hnone vt hvtmem)⟩
    · intro v2 hv2
      unfold updateSecretVersionStage at hv2
      dsimp only at hv2
      obtain ⟨v, hv, rfl⟩ := List.mem_map.mp hv2
      rw [if_neg (by simp)]
      by_cases hB : v.versionId = token
      · rw [if_pos (by simp [hB])]
        apply iff_of_true
        · by_cases hC : v.stages.contains "AWSCURRENT" = true
          · dsimp only
            rw [if_pos hC]
            simpa using hC
          · dsimp only
            rw [if_neg hC]
            simp
        · exact hB
      · rw [if_neg (by simp [hB])]
        exact iff_of_false (hnone v hv) hB
    · refine ⟨_, List.mem_map_of_mem _ hvtmem, ?_⟩
      rw [if_neg (by simp), if_pos (by simp [hvtid])]
      exact hvtid

/-- C4 witness: finishing with token `v2` over the two-version store
succeeds and the token's version ends up present (and CURRENT). -/
theorem c4_finish_secret_witness :
    (finish_secret "v2" exState).1 = .ok ()
    ∧ (∃ v ∈ (finish_secret "v2" exState).2.store.versions,
        v.versionId = "v2") :=
  ⟨(c4_finish_secret "v2" exState exPendingVersion (by decide) (by decide)
      (by decide) (by decide)).1,
   (c4_finish_secret "v2" exState exPendingVersion (by decide) (by decide)
      (by decide) (by decide)).2.2.1⟩

/-! ### C5 -/

/-- Whether the `port` field, when present, parses with Python `int(...)`. -/
def portParses (d : SecretDict) : Bool :=
  match lookupField d "port" with
  | some p => p.toInt?.isSome
  | none => true

/-- Evaluation of `connect_and_authenticate` when the certificate download
succeeds: the connection outcome follows the two TLS tiers, the
certificate file is created and deleted once, and a connection is counted
as opened exactly when some tier succeeds. -/
theorem connect_and_authenticate_eval (env : DbEnv) (r : ResState)
    (hc : env.certFetchOk = true) :
    connect_and_authenticate env r =
      (.ok (if env.verifyFullOk then some .verifyFull
            else if env.requireOk then some .requireTier else none),
       { r with certsCreated := r.certsCreated + 1,
                certsDeleted := r.certsDeleted + 1,
                connsOpened := r.connsOpened +
                  (if env.verifyFullOk || env.requireOk then 1 else 0) }) := by
  unfold connect_and_authenticate get_amazon_root_cert
  by_cases h1 : env.verifyFullOk = true
  · simp [hc, h1]
  · by_cases h2 : env.requireOk = true
    · simp [hc, h1, h2]
    · simp [hc, h1, h2]

/-- C5 counterexample environment: both TLS tiers connect, the query fails. -/
def exEnvQueryFail : DbEnv := ⟨true, true, true, false⟩

/-- C5 counterexample state: mid-rotation store, query-failing environment. -/
def exStateQueryFail : RotState := ⟨exStore, 0, "us-east-1", exEnvQueryFail, exRes⟩

/-- C5 counterexample: the PENDING document is fetchable and valid, a
connection is established, and the liveness query fails — `test_secret`
raises the underlying database error, not the claimed validation error. -/
theorem c5_counterexample :
    (test_secret "v2" exStateQueryFail).1 = .error .dbError
    ∧ (test_secret "v2" exStateQueryFail).1 ≠ .error .validationError := by
  refine ⟨rfl, fun h => ?_⟩
  have h2 : Err.dbError = Err.validationError := Except.error.inj h
  exact absurd h2 (by decide)

/-- C5 amended: with the PENDING document for the attempt token fetchable
and valid (and its port, if any, parsable) and the certificate download
succeeding, `test_secret` succeeds exactly when a connection is established
under some TLS tier and the liveness query and commit succeed; when no
tier yields a connection it fails with the validation error, while a query
failure propagates the underlying database error (after the connection is
closed); in every case each opened connection is closed — none leaks. -/
theorem c5_test_secret_amended (token : String) (s : RotState) (d : SecretDict)
    (hdoc : get_secret_dict s.store "AWSPENDING" (some token) = .ok d)
    (hport : portParses d = true)
    (hcert : s.env.certFetchOk = true) :
    ((test_secret token s).1 = .ok ()
      ↔ ((s.env.verifyFullOk || s.env.requireOk) = true ∧ s.env.queryOk = true))
    ∧ ((s.env.verifyFullOk || s.env.requireOk) = false →
        (test_secret token s).1 = .error .validationError)
    ∧ ((s.env.verifyFullOk || s.env.requireOk) = true → s.env.queryOk = false →
        (test_secret token s).1 = .error .dbError)
    ∧ (test_secret token s).2.res.connsOpened + s.res.connsClosed
        = (test_secret token s).2.res.connsClosed + s.res.connsOpened := by
  have hgc : get_connection d s.env s.res = connect_and_authenticate s.env s.res := by
    unfold get_connection
    cases hp : lookupField d "port" with
    | none => rfl
    | some p =>
      dsimp only
      cases hn : p.toInt? with
      | none =>
        exfalso
        simp [portParses, hp, hn] at hport
      | some n => rfl
  have hconn := connect_and_authenticate_eval s.env s.res hcert
  unfold test_secret
  rw [hdoc]
  dsimp only
  rw [hgc, hconn]
  by_cases h1 : s.env.verifyFullOk = true
  · by_cases h3 : s.env.queryOk = true
    · simp [h1, h3]
      omega
    · simp [h1, h3]
      omega
  · by_cases h2 : s.env.requireOk = true
    · by_cases h3 : s.env.queryOk = true
      · simp [h1, h2, h3]
        omega
      · simp [h1, h2, h3]
        omega
    · simp [h1, h2]
      omega

/-- C5 amended witness: with everything healthy, `test_secret` succeeds. -/
theorem c5_test_secret_amended_witness :
    (test_secret "v2" exState).1 = .ok () :=
  ((c5_test_secret_amended "v2" exState exDoc rfl (by decide)
      (by decide)).1).mpr (by decide)

/-! ### Field-update lemmas used by the createSecret idempotence proof -/

/-- Replacing the value at a present key: looking that key up afterwards
yields the new value. -/
theorem lookupField_map_replace (d : SecretDict) (k v : String)
    (h : d.any (fun p => p.1 == k) = true) :
    lookupField (d.map (fun p => if p.1 == k then (k, v) else p)) k = some v := by
  induction d with
  | nil => simp at h
  | cons p rest ih =>
    rw [List.any_cons] at h
    by_cases hpk : (p.1 == k) = true
    · unfold lookupField
      simp only [List.map_cons, if_pos hpk]
      rw [List.find?_cons_of_pos]
      · rfl
      · simp
    · have hpkf : (p.1 == k) = false := by
        cases hb : (p.1 == k) with
        | false => rfl
        | true => exact absurd hb hpk
      have hrest : rest.any (fun q => q.1 == k) = true := by
        rw [hpkf] at h
        simpa using h
      have ih2 := ih hrest
      unfold lookupField at ih2 ⊢
      simp only [List.map_cons, if_neg hpk]
      rw [List.find?_cons_of_neg]
      · exact ih2
      · simp [hpkf]

/-- Replacing the value at a key leaves lookups of other keys unchanged. -/
theorem lookupField_map_replace_ne (d : SecretDict) (k v j : String)
    (h : j ≠ k) :
    lookupField (d.map (fun p => if p.1 == k then (k, v) else p)) j
      = lookupField d j := by
  induction d with
  | nil => rfl
  | cons p rest ih =>
    by_cases hpk : (p.1 == k) = true
    · have hp1 : p.1 = k := by simpa using hpk
      have hpj : (p.1 == j) = false := by
        rw [hp1]
        exact beq_eq_false_iff_ne.mpr (Ne.symm h)
      unfold lookupField at ih ⊢
      simp only [List.map_cons, if_pos hpk]
      rw [List.find?_cons_of_neg, List.find?_cons_of_neg]
      · exact ih
      all_goals simp [hpj, beq_eq_false_iff_ne.mpr (Ne.symm h)]
    · unfold lookupField at ih ⊢
      simp only [List.map_cons, if_neg hpk]
      by_cases hpj : (p.1 == j) = true
      · rw [List.find?_cons_of_pos, List.find?_cons_of_pos] <;> exact hpj
      · have hpjf : (p.1 == j) = false := by
          cases hb : (p.1 == j) with
          | false => rfl
          | true => exact absurd hb hpj
        rw [List.find?_cons_of_neg, List.find?_cons_of_neg]
        · exact ih
        all_goals simp [hpjf]

/-- Appending a key absent from the document: looking it up afterwards
yields the appended value. -/
theorem lookupField_append_single_self (d : SecretDict) (k v : String)
    (h : d.find? (fun p => p.1 == k) = none) :
    lookupField (d ++ [(k, v)]) k = some v := by
  unfold lookupField
  rw [List.find?_append, h]
  simp

/-- Appending a binding for one key leaves lookups of other keys
unchanged. -/
theorem lookupField_append_single_ne (d : SecretDict) (k v j : String)
    (h : j ≠ k) :
    lookupField (d ++ [(k, v)]) j = lookupField d j := by
  unfold lookupField
  rw [List.find?_append]
  cases hfd : d.find? (fun p => p.1 == j) with
  | some q => simp
  | none => simp [beq_eq_false_iff_ne.mpr (Ne.symm h)]

/-- Python `d[k] = v` then `d[k]` yields `v`. -/
theorem lookupField_setField_self (d : SecretDict) (k v : String) :
    lookupField (setField d k v) k = some v := by
  unfold setField
  by_cases hany : d.any (fun p => p.1 == k) = true
  · rw [if_pos hany]
    exact lookupField_map_replace d k v hany
  · rw [if_neg hany]
    apply lookupField_append_single_self
    rw [List.find?_eq_none]
    intro x hx hpx
    exact hany (List.any_eq_true.mpr ⟨x, hx, hpx⟩)

/-- Python `d[k] = v` leaves every other key's lookup unchanged. -/
theorem lookupField_setField_ne (d : SecretDict) (k v j : String)
    (h : j ≠ k) :
    lookupField (setField d k v) j = lookupField d j := by
  unfold setField
  by_cases hany : d.any (fun p => p.1 == k) = true
  · rw [if_pos hany]
    exact lookupField_map_replace_ne d k v j h
  · rw [if_neg hany]
    exact lookupField_append_single_ne d k v j h

/-- A document that passes validation still passes it after its password
is replaced, since validation never reads the password's value, only its
presence. -/
theorem validate_setField_password (d : SecretDict) (pw : String)
    (h : validate_secret_dict d = .ok d) :
    validate_secret_dict (setField d "password" pw)
      = .ok (setField d "password" pw) := by
  unfold validate_secret_dict at h
  cases hlk : lookupField d "engine" with
  | none =>
    rw [hlk] at h
    simp at h
  | some e =>
    rw [hlk] at h
    by_cases he : e = "postgres"
    · subst he
      rw [if_neg (by simp [supported_engines])] at h
      have hflds : required_fields.find?
          (fun f => (lookupField d f).isNone) = none := by
        cases hfd : required_fields.find? (fun f => (lookupField d f).isNone) with
        | none => rfl
        | some g =>
          rw [hfd] at h
          exact Except.noConfusion h
      have hmiss : ∀ f ∈ required_fields, (lookupField d f).isNone = false := by
        intro f hf
        have h2 := List.find?_eq_none.mp hflds f hf
        cases hv : (lookupField d f).isNone with
        | false => rfl
        | true => exact absurd hv h2
      unfold validate_secret_dict
      rw [lookupField_setField_ne d "password" pw "engine" (by decide), hlk]
      rw [if_neg (by simp [supported_engines])]
      have hfindd : required_fields.find?
          (fun f => (lookupField (setField d "password" pw) f).isNone) = none := by
        rw [List.find?_eq_none]
        intro f hf
        simp only [required_fields, List.mem_cons, List.not_mem_nil, or_false] at hf
        rcases hf with rfl | rfl | rfl
        · rw [lookupField_setField_ne d "password" pw "username" (by decide)]
          simp [hmiss "username" (by simp [required_fields])]
        · rw [lookupField_setField_self d "password" pw]
          simp
        · rw [lookupField_setField_ne d "password" pw "host" (by decide)]
          simp [hmiss "host" (by simp [required_fields])]
      rw [hfindd]
    · rw [if_pos (by simp [supported_engines, he])] at h
      exact Except.noConfusion h

/-! ### C3 -/

/-- The effect of `putSecretValue` with stages `["AWSPENDING"]` on a prior
version: the AWSPENDING label is moved off it. -/
def stripPending (w : SecretVersion) : SecretVersion :=
  { w with stages := w.stages.filter (fun x => !(["AWSPENDING"].contains x)) }

/-- The version list `putSecretValue` produces when storing document `d2`
under a fresh attempt token staged AWSPENDING. -/
def pendingPutVersions (vs : List SecretVersion) (token : String)
    (d2 : SecretDict) : List SecretVersion :=
  vs.map stripPending ++ [⟨token, ["AWSPENDING"], d2⟩]

/-- The token request `create_secret` issues: the admin-vs-standard class
of the CURRENT document's username, for the CURRENT host, with the 8-hour
expiry. -/
def pendingTokenRequest (hs region u : String) : TokenRequest :=
  ⟨if pyLower (pyStrip u) == "admin" then .admin else .standard, hs, region, 28800⟩

/-- Moving the AWSPENDING label off a version removes it. -/
theorem stripPending_contains_pending (w : SecretVersion) :
    (stripPending w).stages.contains "AWSPENDING" = false := by
  simp [stripPending, List.mem_filter]

/-- Moving the AWSPENDING label off a version leaves AWSCURRENT alone. -/
theorem stripPending_contains_current (w : SecretVersion) :
    (stripPending w).stages.contains "AWSCURRENT"
      = w.stages.contains "AWSCURRENT" := by
  unfold stripPending
  rw [Bool.eq_iff_iff]
  constructor
  · intro h
    have hm : "AWSCURRENT" ∈ w.stages.filter
        (fun x => !(["AWSPENDING"].contains x)) := by
      simpa using h
    have h2 := (List.mem_filter.mp hm).1
    simpa using h2
  · intro h
    have hm : "AWSCURRENT" ∈ w.stages := by simpa using h
    have h2 : "AWSCURRENT" ∈ w.stages.filter
        (fun x => !(["AWSPENDING"].contains x)) :=
      List.mem_filter.mpr ⟨hm, by decide⟩
    simpa using h2

/-- A version not staged AWSPENDING is untouched by the label move. -/
theorem stripPending_id (w : SecretVersion) (hnp : "AWSPENDING" ∉ w.stages) :
    stripPending w = w := by
  unfold stripPending
  have hf : w.stages.filter (fun x => !(["AWSPENDING"].contains x)) = w.stages := by
    rw [List.filter_eq_self]
    intro a ha
    simp only [List.contains_cons, List.contains_nil, Bool.or_false,
      Bool.not_eq_true', beq_eq_false_iff_ne]
    intro hae
    exact hnp (hae ▸ ha)
  rw [hf]

/-- After the put, the attempt token's version is the unique AWSPENDING
holder. -/
theorem pendingPutVersions_filter (vs : List SecretVersion) (token : String)
    (d2 : SecretDict) :
    ((pendingPutVersions vs token d2).filter
      (fun v => v.stages.contains "AWSPENDING")).map (fun v => v.versionId)
      = [token] := by
  unfold pendingPutVersions
  rw [List.filter_append]
  have h1 : (vs.map stripPending).filter
      (fun v => v.stages.contains "AWSPENDING") = [] := by
    rw [List.filter_eq_nil_iff]
    intro a ha
    obtain ⟨w, hw, rfl⟩ := List.mem_map.mp ha
    rw [stripPending_contains_pending w]
    exact Bool.false_ne_true
  rw [h1]
  simp

/-- After the put, the first AWSCURRENT version is the same one as before,
unchanged, provided it was not also staged AWSPENDING. -/
theorem pendingPutVersions_find_current (vs : List SecretVersion)
    (token : String) (d2 : SecretDict) (vc : SecretVersion)
    (hfindC : vs.find? (fun v => v.stages.contains "AWSCURRENT") = some vc)
    (hnp : "AWSPENDING" ∉ vc.stages) :
    (pendingPutVersions vs token d2).find?
      (fun v => v.stages.contains "AWSCURRENT") = some vc := by
  unfold pendingPutVersions
  rw [List.find?_append, List.find?_map]
  have hcomp : ((fun v : SecretVersion => v.stages.contains "AWSCURRENT")
      ∘ stripPending) = (fun v : SecretVersion => v.stages.contains "AWSCURRENT") :=
    funext fun w => stripPending_contains_current w
  rw [hcomp, hfindC]
  simp only [Option.map_some']
  rw [stripPending_id vc hnp]
  rfl

/-- After the put, the attempt token's version is found, carrying the put
document and the AWSPENDING stage. -/
theorem pendingPutVersions_find_token (vs : List SecretVersion)
    (token : String) (d2 : SecretDict)
    (htok : ∀ v ∈ vs, v.versionId ≠ token) :
    (pendingPutVersions vs token d2).find? (fun v => v.versionId == token)
      = some ⟨token, ["AWSPENDING"], d2⟩ := by
  unfold pendingPutVersions
  rw [List.find?_append]
  have h1 : (vs.map stripPending).find? (fun v => v.versionId == token) = none := by
    rw [List.find?_eq_none]
    intro a ha
    obtain ⟨w, hw, rfl⟩ := List.mem_map.mp ha
    simp [stripPending, htok w hw]
  rw [h1]
  simp

/-- Evaluation of `create_secret` when a PENDING version for the attempt
token already exists: the pre-existing version is detected and nothing
changes — no token is generated, nothing is stored. -/
theorem create_secret_existing (token : String) (s : RotState)
    (dc dp : SecretDict)
    (hcur : get_secret_dict s.store "AWSCURRENT" none = .ok dc)
    (hpend : get_secret_dict s.store "AWSPENDING" (some token) = .ok dp) :
    create_secret token s = (.ok (), s) := by
  unfold create_secret
  rw [hcur]
  dsimp only
  rw [hpend]

/-- Evaluation of `create_secret` when the attempt token names no version
yet: one token is generated for the CURRENT username and the new document
is stored AWSPENDING under the attempt token. -/
theorem create_secret_fresh (token : String) (s : RotState)
    (dc : SecretDict) (u hs : String)
    (hcur : get_secret_dict s.store "AWSCURRENT" none = .ok dc)
    (hu : lookupField dc "username" = some u)
    (hh : lookupField dc "host" = some hs)
    (hune : u ≠ "")
    (htok : ∀ v ∈ s.store.versions, v.versionId ≠ token) :
    create_secret token s = (.ok (),
      { s with
        genCount := s.genCount + 1,
        store := { s.store with
          versions := pendingPutVersions s.store.versions token
            (setField dc "password"
              (presignedUrl (pendingTokenRequest hs s.region u) s.genCount)) } }) := by
  have hfindN : s.store.versions.find? (fun v => v.versionId == token) = none := by
    rw [List.find?_eq_none]
    intro v hv
    simp [htok v hv]
  have hgsv : getSecretValue s.store "AWSPENDING" (some token)
      = .error .resourceNotFound := by
    unfold getSecretValue
    dsimp only
    rw [hfindN]
  have hgsd : get_secret_dict s.store "AWSPENDING" (some token)
      = .error .resourceNotFound := by
    unfold get_secret_dict
    rw [hgsv]
  have hany : s.store.versions.any (fun v => v.versionId == token) = false := by
    rw [List.any_eq_false]
    intro v hv
    simp [htok v hv]
  have hput : ∀ d2 : SecretDict,
      putSecretValue s.store token d2 ["AWSPENDING"]
        = .ok { s.store with
            versions := pendingPutVersions s.store.versions token d2 } := by
    intro d2
    unfold putSecretValue
    rw [if_neg (by simp [hany])]
    rfl
  unfold create_secret
  rw [hcur]
  dsimp only
  rw [hgsd]
  dsimp only
  rw [hh, hu]
  dsimp only
  rw [generate_auth_token_nonempty hs s.region 28800 u hune]
  dsimp only
  rw [hput _]
  dsimp only
  rfl

/-- C3: createSecret is idempotent: from a state whose CURRENT version is
fetchable and valid (with a non-empty username and a host) and whose
attempt token names no existing version, running `create_secret` twice
with the same attempt token succeeds both times, generates exactly one
auth token in total, leaves the attempt token's version as the unique
AWSPENDING version, leaves the CURRENT version untouched, and the retry
detects the pre-existing PENDING version and changes nothing. -/
theorem c3_create_secret_idempotent (token : String) (s : RotState)
    (vc : SecretVersion) (u hs : String)
    (hfindC : s.store.versions.find?
      (fun v => v.stages.contains "AWSCURRENT") = some vc)
    (hval : validate_secret_dict vc.doc = .ok vc.doc)
    (hu : lookupField vc.doc "username" = some u)
    (hh : lookupField vc.doc "host" = some hs)
    (hune : u ≠ "")
    (htok : ∀ v ∈ s.store.versions, v.versionId ≠ token)
    (hnp : "AWSPENDING" ∉ vc.stages) :
    (create_secret token s).1 = .ok ()
    ∧ (create_secret token (create_secret token s).2).1 = .ok ()
    ∧ (create_secret token (create_secret token s).2).2 = (create_secret token s).2
    ∧ (create_secret token s).2.genCount = s.genCount + 1
    ∧ (((create_secret token s).2.store.versions.filter
        (fun v => v.stages.contains "AWSPENDING")).map (fun v => v.versionId))
        = [token]
    ∧ (create_secret token s).2.store.versions.find?
        (fun v => v.stages.contains "AWSCURRENT") = some vc := by
  have hgvC : getSecretValue s.store "AWSCURRENT" none = .ok vc.doc := by
    unfold getSecretValue
    rw [hfindC]
  have hcur : get_secret_dict s.store "AWSCURRENT" none = .ok vc.doc := by
    unfold get_secret_dict
    rw [hgvC]
    dsimp only
    exact hval
  have hc1 := create_secret_fresh token s vc.doc u hs hcur hu hh hune htok
  rw [hc1]
  dsimp only
  set d2 := setField vc.doc "password"
    (presignedUrl (pendingTokenRequest hs s.region u) s.genCount) with hd2
  have hval2 : validate_secret_dict d2 = .ok d2 := by
    rw [hd2]
    exact validate_setField_password vc.doc _ hval
  -- facts about the state after the first call
  have hfind6 : (pendingPutVersions s.store.versions token d2).find?
      (fun v => v.stages.contains "AWSCURRENT") = some vc :=
    pendingPutVersions_find_current s.store.versions token d2 vc hfindC hnp
  have hgvC2 : getSecretValue { s.store with
      versions := pendingPutVersions s.store.versions token d2 } "AWSCURRENT" none
      = .ok vc.doc := by
    unfold getSecretValue
    dsimp only
    rw [hfind6]
  have hcur2 : get_secret_dict { s.store with
      versions := pendingPutVersions s.store.versions token d2 } "AWSCURRENT" none
      = .ok vc.doc := by
    unfold get_secret_dict
    rw [hgvC2]
    dsimp only
    exact hval
  have hgvP2 : getSecretValue { s.store with
      versions := pendingPutVersions s.store.versions token d2 } "AWSPENDING"
      (some token) = .ok d2 := by
    unfold getSecretValue
    dsimp only
    rw [pendingPutVersions_find_token s.store.versions token d2 htok]
    dsimp only
    rw [if_pos (by simp)]
  have hpend2 : get_secret_dict { s.store with
      versions := pendingPutVersions s.store.versions token d2 } "AWSPENDING"
      (some token) = .ok d2 := by
    unfold get_secret_dict
    rw [hgvP2]
    dsimp only
    exact hval2
  have hc2 := create_secret_existing token
    { s with
      genCount := s.genCount + 1,
      store := { s.store with
        versions := pendingPutVersions s.store.versions token d2 } }
    vc.doc d2 hcur2 hpend2
  rw [hc2]
  exact ⟨rfl, rfl, rfl, rfl,
    pendingPutVersions_filter s.store.versions token d2, hfind6⟩

/-- C3 witness: a concrete fresh rotation: two runs of `create_secret`
with token `v2` generate one token, leave `v2` the unique PENDING version,
and the second run changes nothing. -/
theorem c3_create_secret_idempotent_witness :
    (create_secret "v2" exStateCur).1 = .ok ()
    ∧ (create_secret "v2" (create_secret "v2" exStateCur).2).2
        = (create_secret "v2" exStateCur).2
    ∧ (create_secret "v2" exStateCur).2.genCount = 1 := by
  have h := c3_create_secret_idempotent "v2" exStateCur exCurrentVersion
    "app_user" "db.example" (by decide) rfl (by decide) (by decide)
    (by decide) (by decide) (by decide)
  exact ⟨h.1, h.2.2.1, h.2.2.2.1⟩

end DsqlRotation
